import Mathlib

/-!
Shallow embedding of the tabbed error-report registry implemented in
`src/EdsacErrorNotebook.c` (the EdsacErrorNotebook GObject class), together
with theorems settling the specification claims about it.

Modelling conventions:
* C `gint` / `unsigned int` scope fields are modelled as `Int`; all comparisons
  in the source compare in-range small values, where C promotion agrees with
  integer equality.
* `GSList` becomes `List`; the GTK notebook's page set is kept in sync with the
  `open_tabs_list` by the code (every append/remove goes through the functions
  modelled here), so the page count is the list length.
* `malloc` leaves fields it does not set indeterminate; those junk field values
  appear as explicit universally-quantified parameters (`j...`).
* GtkTextBuffer contents are modelled as the text string plus the list of
  tagged ranges applied to it (`TextBuf`); offsets are character offsets
  (ASCII text, so byte lengths used by the C code coincide).
-/

namespace EdsacNotebook

/-- Tag of a `Clickable` (the C enum includes the four named scopes; the
`other` constructor stands for any further enum value, reachable in the
source's `default:` switch branch). -/
inductive CType where
  | all
  | rack
  | chassis
  | valve
  | other (n : Nat)
deriving DecidableEq, Repr

/-- The C `Clickable` struct: a type tag plus the three scope fields, all of
which are physically present whatever the tag (unset ones hold junk). -/
structure Clickable where
  type : CType
  rack_num : Int
  chassis_num : Int
  valve_num : Int
deriving DecidableEq, Repr

/-- Direct translation of `clickable_compare` (EdsacErrorNotebook.c:269-297).
The final guard mirrors the source, whose local `valve_num` is computed as
`a->chassis_num == b->chassis_num` (the chassis fields again, not the valve
fields). -/
def clickable_compare (a b : Clickable) : Bool :=
  if a.type ≠ b.type then false
  else if a.type = CType.all then true
  else if a.type = CType.rack ∧ a.rack_num = b.rack_num then true
  else if a.type = CType.chassis ∧ a.rack_num = b.rack_num ∧
      a.chassis_num = b.chassis_num then true
  else if a.type = CType.valve ∧ a.rack_num = b.rack_num ∧
      a.chassis_num = b.chassis_num ∧ a.chassis_num = b.chassis_num then true
  else false

/-- A `Clickable` whose tag is one of the four scopes of the data model. -/
def valid_type (t : CType) : Prop :=
  t = CType.all ∨ t = CType.rack ∨ t = CType.chassis ∨ t = CType.valve

instance : DecidablePred valid_type := fun t => by
  unfold valid_type; infer_instance

/-- One row of a database query result, the C `SearchResult` struct consumed by
`append_linky_text_buffer` (a negative `valve_no` means the valve is absent). -/
structure SearchResult where
  rack_no : Int
  chassis_no : Int
  valve_no : Int
  message : String
  enabled : Bool
  id : Int
deriving DecidableEq, Repr

/-- A text range tagged with a `Clickable`, as installed by `add_link`
(EdsacErrorNotebook.c:450-464): half-open character-offset range plus the bound
filter descriptor. -/
structure FilterRange where
  start_pos : Nat
  end_pos : Nat
  data : Clickable
deriving DecidableEq, Repr

/-- The description tag applied over the tail of a rendered row
(EdsacErrorNotebook.c:424-439): its offset range, the bound record id, and
whether the grey "disabled" styling was used. -/
structure DescRange where
  start_pos : Nat
  end_pos : Nat
  error_id : Int
  greyed : Bool
deriving DecidableEq, Repr

/-- Observable state of a tab's GtkTextBuffer: the text plus the interactive
ranges applied to it, in application order. -/
structure TextBuf where
  text : String
  links : List FilterRange
  descs : List DescRange
deriving DecidableEq, Repr

/-- The empty text buffer created by `new_linky_buffer`. -/
def emptyTextBuf : TextBuf := ⟨"", [], []⟩

/-- Translation of `append_linky_text_buffer` (EdsacErrorNotebook.c:367-447).
`jrc jrv` are the junk values left by `malloc` in the chassis and valve fields
of the RACK clickable, `jcv` the junk valve field of the CHASSIS clickable
(the source never writes those fields). Offsets follow the C arithmetic on
the growing `message` GString. -/
def append_linky_text_buffer (jrc jrv jcv : Int) (buf : TextBuf)
    (data : SearchResult) : TextBuf :=
  let offset := buf.text.length
  let m1 := "Rack: " ++ toString data.rack_no ++ ", "
  let rack_start := offset
  let rack_end := offset + m1.length - 2      -- comma, space
  let chassis_start := offset + m1.length
  let m2 := m1 ++ ("Chassis: " ++ toString data.chassis_no ++ ", ")
  let chassis_end := offset + m2.length - 2   -- comma, space
  let valve_start := offset + m2.length
  let m3 := if data.valve_no ≥ 0
    then m2 ++ ("Valve: " ++ toString data.valve_no ++ ": ")
    else m2
  let valve_end := offset + m3.length - 2     -- colon, space (valid either way)
  let m4 := m3 ++ (data.message ++ "\n")
  let text2 := buf.text ++ m4
  let rack_data : Clickable := ⟨CType.rack, data.rack_no, jrc, jrv⟩
  let chassis_data : Clickable := ⟨CType.chassis, data.rack_no, data.chassis_no, jcv⟩
  let desc : DescRange := ⟨valve_end, text2.length, data.id, !data.enabled⟩
  let links2 := buf.links ++ [⟨rack_start, rack_end, rack_data⟩,
    ⟨chassis_start, chassis_end, chassis_data⟩]
  let links3 := if data.valve_no ≥ 0
    then links2 ++ [⟨valve_start, valve_end,
      ⟨CType.valve, data.rack_no, data.chassis_no, data.valve_no⟩⟩]
    else links2
  { text := text2, links := links3, descs := buf.descs ++ [desc] }

/-- Tab title synthesis, the switch in `add_new_page_to_notebook`
(EdsacErrorNotebook.c:158-173), format strings reproduced verbatim. -/
def tab_title (d : Clickable) : String :=
  match d.type with
  | CType.all => "All"
  | CType.rack => "Rack " ++ toString d.rack_num
  | CType.chassis =>
      "Rack " ++ toString d.rack_num ++ ", Chassis: " ++ toString d.chassis_num
  | CType.valve =>
      "Rack " ++ toString d.rack_num ++ ", Chassis " ++ toString d.chassis_num
        ++ ", Valve: " ++ toString d.valve_num
  | CType.other _ => "(Unknown)"

/-- The C `LinkyBuffer` tab context: scope descriptor, notebook page id, tab
title and rendered buffer. -/
structure LinkyBuffer where
  description : Clickable
  page_id : Int
  title : String
  buffer : TextBuf
deriving DecidableEq, Repr

/-- `open_tabs_list_dec_id` (EdsacErrorNotebook.c:314-320): decrement a tab's
page id, everything else untouched. -/
def open_tabs_list_dec_id (lb : LinkyBuffer) : LinkyBuffer :=
  { lb with page_id := lb.page_id - 1 }

/-- The rack/chassis field test of `edsac_error_notebook_close_node`
(EdsacErrorNotebook.c:126-127): nested comparisons of the two scope fields,
the type tag never being consulted. -/
def node_match (r c : Int) (lb : LinkyBuffer) : Bool :=
  if lb.description.rack_num = r then
    if lb.description.chassis_num = c then true else false
  else false

/-- The notebook's private state: the open-tabs list (EdsacErrorNotebook.c:34-36).
The GTK page collection stays in bijection with it, every page append/remove
going through `add_new_page_to_notebook` / `close_tab`, so the page count is
the list length. -/
structure Notebook where
  open_tabs_list : List LinkyBuffer
deriving DecidableEq, Repr

/-- GLib `g_slist_insert_sorted` with `open_tabs_list_compare_by_id`
(EdsacErrorNotebook.c:301-311): insert before the first element whose page id
is at least the new one's, else append. -/
def g_slist_insert_sorted (lb : LinkyBuffer) : List LinkyBuffer → List LinkyBuffer
  | [] => [lb]
  | x :: xs =>
    if lb.page_id ≤ x.page_id then lb :: x :: xs
    else x :: g_slist_insert_sorted lb xs

/-- `update_tab` content synthesis (EdsacErrorNotebook.c:495-516): clear the
buffer and re-append one row per query result, in order. `db` models the
external `search_clickable` query service; `jrc jrv jcv` the malloc junk of
`append_linky_text_buffer`. -/
def resynthesize (db : Clickable → List SearchResult) (jrc jrv jcv : Int)
    (d : Clickable) : TextBuf :=
  (db d).foldl (append_linky_text_buffer jrc jrv jcv) emptyTextBuf

/-- `add_new_page_to_notebook` (EdsacErrorNotebook.c:143-209): build the
LinkyBuffer for descriptor `data` (the description copied wholesale, the page
id being the appended GTK page's index, i.e. the prior page count), insert it
into the open-tabs list sorted by id, synthesize its content, and return the
new state together with the focused page index. -/
def add_new_page_to_notebook (db : Clickable → List SearchResult)
    (jrc jrv jcv : Int) (nb : Notebook) (data : Clickable) : Notebook × Int :=
  let index : Int := nb.open_tabs_list.length
  let lb : LinkyBuffer :=
    { description := data
      page_id := index
      title := tab_title data
      buffer := resynthesize db jrc jrv jcv data }
  (⟨g_slist_insert_sorted lb nb.open_tabs_list⟩, index)

/-- `edsac_error_notebook_show_page` (EdsacErrorNotebook.c:97-114): search the
open-tabs list for a tab whose description compares equal to `data`; if found,
focus its page without mutating anything, otherwise add a new page. The
returned `Int` is the page index made current. -/
def edsac_error_notebook_show_page (db : Clickable → List SearchResult)
    (jrc jrv jcv : Int) (nb : Notebook) (data : Clickable) : Notebook × Int :=
  match nb.open_tabs_list.find?
      (fun lb => clickable_compare lb.description data) with
  | some tab => (nb, tab.page_id)
  | none => add_new_page_to_notebook db jrc jrv jcv nb data

/-- `close_tab` reached through a lookup by page id, as in
`close_button_handler` (EdsacErrorNotebook.c:211-243, 568-593): the first tab
with the given id is removed and — `g_slist_foreach` starting at that node —
every tab after it has its page id decremented; tabs before it are untouched.
An absent id leaves the list unchanged (the handler just reports it). -/
def close_tab_by_id : List LinkyBuffer → Int → List LinkyBuffer
  | [], _ => []
  | x :: xs, k =>
    if x.page_id = k then xs.map open_tabs_list_dec_id
    else x :: close_tab_by_id xs k

/-- Public close-by-page-id entry (`close_button_handler`): returns the new
state plus whether `close_tab` closed the top-level window because the last
page was removed (EdsacErrorNotebook.c:230-243). -/
def close_button_handler (nb : Notebook) (k : Int) : Notebook × Bool :=
  if nb.open_tabs_list.any (fun lb => lb.page_id = k) then
    let l2 := close_tab_by_id nb.open_tabs_list k
    (⟨l2⟩, l2.length == 0)
  else (nb, false)

/-- One pass of the `edsac_error_notebook_close_node` scan: find the first tab
matching the rack/chassis fields; close it (`close_tab` semantics: tail ids
decremented, node removed) and report the new list, or report that no tab
matched. -/
def remove_first_match (r c : Int) : List LinkyBuffer →
    Option (List LinkyBuffer)
  | [] => none
  | x :: xs =>
    if node_match r c x then some (xs.map open_tabs_list_dec_id)
    else
      match remove_first_match r c xs with
      | none => none
      | some ys => some (x :: ys)

/-- The `edsac_error_notebook_close_node` while-loop (EdsacErrorNotebook.c:
120-139): close the first matching tab and restart the scan from the list
head, until no match remains. Each close removes one element, so the loop
runs at most `length` times; the fuel makes that bound structural. -/
def close_node_go (r c : Int) : Nat → List LinkyBuffer → List LinkyBuffer
  | 0, l => l
  | fuel + 1, l =>
    match remove_first_match r c l with
    | none => l
    | some l2 => close_node_go r c fuel l2

/-- `edsac_error_notebook_close_node` (EdsacErrorNotebook.c:116-140) on a
non-NULL notebook whose list entries are all non-NULL (the NULL cases are
modelled separately for the safety claim). -/
def edsac_error_notebook_close_node (nb : Notebook) (r c : Int) : Notebook :=
  ⟨close_node_go r c nb.open_tabs_list.length nb.open_tabs_list⟩

/-- `edsac_error_notebook_get_error_count` (EdsacErrorNotebook.c:76-95).
`count_clickable` models the external counting query of the SQL service;
`current_page` is what `gtk_notebook_get_current_page` reported (−1 when no
page is current). -/
def edsac_error_notebook_get_error_count (count_clickable : Clickable → Int)
    (current_page : Int) (nb : Notebook) : Int :=
  if current_page = -1 then -1
  else
    match nb.open_tabs_list.find? (fun lb => lb.page_id = current_page) with
    | none => -1
    | some lb => count_clickable lb.description

/-- `edsac_error_notebook_instance_init` (EdsacErrorNotebook.c:684-697): the
registry starts empty and one ALL-scoped page is added; `jr jc jv` are the
junk scope fields of the malloc'd ALL descriptor (only its type is set). -/
def init_notebook (db : Clickable → List SearchResult)
    (jrc jrv jcv jr jc jv : Int) : Notebook :=
  (add_new_page_to_notebook db jrc jrv jcv ⟨[]⟩ ⟨CType.all, jr, jc, jv⟩).1

/-- The registry operations a user-interface event can trigger on the
open-tabs list: open-or-focus a descriptor, or close a page by id. -/
inductive Op where
  | showOp (d : Clickable)
  | closeOp (k : Int)

/-- Apply one operation to the notebook state. -/
def apply_op (db : Clickable → List SearchResult) (jrc jrv jcv : Int)
    (nb : Notebook) : Op → Notebook
  | Op.showOp d => (edsac_error_notebook_show_page db jrc jrv jcv nb d).1
  | Op.closeOp k => (close_button_handler nb k).1

/-- Run a sequence of operations left to right. -/
def run_ops (db : Clickable → List SearchResult) (jrc jrv jcv : Int)
    (nb : Notebook) (ops : List Op) : Notebook :=
  ops.foldl (apply_op db jrc jrv jcv) nb

/-- Page ids of the open tabs, in list order. -/
def ids (l : List LinkyBuffer) : List Int := l.map (·.page_id)

/-- The integer interval `[s, s + n)` as an ascending list. -/
def intRange (s : Int) : Nat → List Int
  | 0 => []
  | n + 1 => s :: intRange (s + 1) n

/-- The contiguity invariant: the page ids read `0, 1, …, n−1` in order. -/
def Inv (l : List LinkyBuffer) : Prop :=
  ids l = intRange 0 l.length

instance : DecidablePred Inv := fun l => by
  unfold Inv; infer_instance

/-- A tab's identity apart from its page id: descriptor, title and rendered
buffer (what "the same view, still open" means once ids shift). -/
def view_key (lb : LinkyBuffer) : Clickable × String × TextBuf :=
  (lb.description, lb.title, lb.buffer)

/-- `open_tabs_list_dec_id` on a possibly-NULL list entry: the C callback
asserts its argument is non-NULL, so a NULL entry aborts
(EdsacErrorNotebook.c:314-320). -/
def open_tabs_list_dec_id_checked (e : Option LinkyBuffer) :
    Except String (Option LinkyBuffer) :=
  match e with
  | none => Except.error "assert: NULL data"
  | some lb => Except.ok (some (open_tabs_list_dec_id lb))

/-- Outcome of one pass of the `edsac_error_notebook_close_node` while-loop
over a list with possibly-NULL entries. -/
inductive ScanResult where
  | finished
  | closed (l : List (Option LinkyBuffer))

/-- One pass of the `edsac_error_notebook_close_node` loop
(EdsacErrorNotebook.c:120-139) on a list with possibly-NULL entries, `pre`
being the already-visited items. Reaching the list end or a NULL entry makes
the function return (`finished`); a field match runs `close_tab`, whose
`g_slist_foreach` decrement would assert on any NULL entry after the node
(`closed` carries the list the loop restarts on). -/
def close_node_scan (r c : Int) (pre : List (Option LinkyBuffer)) :
    List (Option LinkyBuffer) → Except String ScanResult
  | [] => Except.ok ScanResult.finished
  | none :: _ => Except.ok ScanResult.finished
  | some lb :: rest =>
    if node_match r c lb then
      match rest.mapM open_tabs_list_dec_id_checked with
      | Except.error e => Except.error e
      | Except.ok rest2 => Except.ok (ScanResult.closed (pre ++ rest2))
    else close_node_scan r c (pre ++ [some lb]) rest

/-- The restart-on-close driver of the NULL-aware `close_node` model; as in
`close_node_go`, each close removes an element so the list length bounds the
number of restarts. -/
def close_node_go_checked (r c : Int) :
    Nat → List (Option LinkyBuffer) → Except String (List (Option LinkyBuffer))
  | 0, l => Except.ok l
  | fuel + 1, l =>
    match close_node_scan r c [] l with
    | Except.error e => Except.error e
    | Except.ok ScanResult.finished => Except.ok l
    | Except.ok (ScanResult.closed l2) => close_node_go_checked r c fuel l2

/-- `edsac_error_notebook_close_node` with the NULL checks of the source
modelled explicitly: a NULL `self` returns at once
(EdsacErrorNotebook.c:117-118); an `Except.error` result stands for an
aborted C assertion, an `Except.ok` for a normal return. -/
def edsac_error_notebook_close_node_checked
    (self : Option (List (Option LinkyBuffer))) (r c : Int) :
    Except String (Option (List (Option LinkyBuffer))) :=
  match self with
  | none => Except.ok none
  | some l =>
    match close_node_go_checked r c l.length l with
    | Except.error e => Except.error e
    | Except.ok l2 => Except.ok (some l2)

/-- Concrete query service used to evaluate theorems: every scope is empty. -/
def dbW : Clickable → List SearchResult := fun _ => []

/-- Concrete counting service used to evaluate theorems: every scope holds
five records. -/
def ccW : Clickable → Int := fun _ => 5

/-- Concrete RACK descriptor fixture. -/
def wdesc (r : Int) : Clickable := ⟨CType.rack, r, 0, 0⟩

/-- Concrete tab fixture with a given rack scope and page id. -/
def wtab (r k : Int) : LinkyBuffer := ⟨wdesc r, k, "t", emptyTextBuf⟩

/-- One-tab notebook fixture. -/
def wnb1 : Notebook := ⟨[wtab 10 0]⟩

/-- Three-tab notebook fixture with contiguous page ids. -/
def wnb3 : Notebook := ⟨[wtab 10 0, wtab 11 1, wtab 12 2]⟩

end EdsacNotebook

namespace EdsacNotebook

/-! Helper lemmas. -/

/-- `clickable_compare` is reflexive on descriptors with a valid tag. -/
theorem clickable_compare_refl (d : Clickable) (h : valid_type d.type) :
    clickable_compare d d = true := by
  rcases h with h | h | h | h <;> simp [clickable_compare, h]

/-- Extending an integer interval on the right. -/
theorem intRange_append (s : Int) (n : Nat) :
    intRange s (n + 1) = intRange s n ++ [s + n] := by
  induction n generalizing s with
  | zero => simp [intRange]
  | succ m ih =>
      show s :: intRange (s + 1) (m + 1) = (s :: intRange (s + 1) m) ++ [s + (m + 1 : Nat)]
      rw [ih]
      have hc : s + 1 + (m : Int) = s + ((m + 1 : Nat) : Int) := by push_cast; ring
      rw [hc]
      simp

/-- Bounds of interval membership. -/
theorem mem_intRange {a s : Int} {n : Nat} (h : a ∈ intRange s n) :
    s ≤ a ∧ a < s + n := by
  induction n generalizing s with
  | zero => simp [intRange] at h
  | succ m ih =>
      rcases List.mem_cons.mp h with rfl | h2
      · omega
      · have := ih h2
        omega

/-- Shifting an interval down by one. -/
theorem intRange_map_sub_one (s : Int) (n : Nat) :
    (intRange (s + 1) n).map (fun a => a - 1) = intRange s n := by
  induction n generalizing s with
  | zero => rfl
  | succ m ih =>
      show (s + 1 - 1) :: (intRange (s + 1 + 1) m).map (fun a => a - 1)
        = s :: intRange (s + 1) m
      rw [ih]
      congr 1
      omega

/-- Page ids after decrementing every tab. -/
theorem ids_map_dec (l : List LinkyBuffer) :
    ids (l.map open_tabs_list_dec_id) = (ids l).map (fun a => a - 1) := by
  simp [ids, open_tabs_list_dec_id, List.map_map, Function.comp]

/-- A tab whose page id exceeds every existing one is appended by the sorted
insert. -/
theorem insert_sorted_eq_append (lb : LinkyBuffer) (l : List LinkyBuffer)
    (h : ∀ x ∈ l, x.page_id < lb.page_id) :
    g_slist_insert_sorted lb l = l ++ [lb] := by
  induction l with
  | nil => rfl
  | cons x xs ih =>
      have hx := h x (List.mem_cons_self _ _)
      simp only [g_slist_insert_sorted, if_neg (by omega : ¬ lb.page_id ≤ x.page_id)]
      rw [ih (fun y hy => h y (List.mem_cons_of_mem _ hy))]
      simp

/-- Under the contiguity invariant every page id is in `[0, n)`. -/
theorem mem_id_bounds {l : List LinkyBuffer} (hInv : Inv l)
    {x : LinkyBuffer} (hx : x ∈ l) :
    0 ≤ x.page_id ∧ x.page_id < (l.length : Int) := by
  have : x.page_id ∈ ids l := List.mem_map_of_mem _ hx
  rw [hInv] at this
  have := mem_intRange this
  omega

/-- Closing a present page id keeps the ids contiguous: if they read
`[s, s + n)` and `k` lies in that interval, afterwards they read
`[s, s + n − 1)`. -/
theorem close_tab_by_id_ids (k : Int) :
    ∀ (l : List LinkyBuffer) (s : Int), ids l = intRange s l.length →
      s ≤ k → k < s + l.length →
      ids (close_tab_by_id l k) = intRange s (l.length - 1) := by
  intro l
  induction l with
  | nil => intro s _ h1 h2; simp at h2; omega
  | cons x xs ih =>
      intro s hids h1 h2
      have hx : x.page_id = s ∧ ids xs = intRange (s + 1) xs.length := by
        simpa [ids, intRange] using hids
      by_cases hk : x.page_id = k
      · simp only [close_tab_by_id, if_pos hk, ids_map_dec, hx.2,
          intRange_map_sub_one]
        simp [ids]
      · have hsk : s < k := by omega
        rcases xs with _ | ⟨y, ys⟩
        · simp at h2; omega
        · have hrec := ih (s + 1) hx.2 (by omega) (by simp at h2 ⊢; omega)
          simp only [close_tab_by_id, if_neg hk]
          simp only [ids, List.map_cons] at hrec ⊢
          rw [hx.1]
          simp only [List.length_cons] at hrec ⊢
          simpa [intRange, Nat.succ_sub_one] using hrec

/-- Closing a present page id shrinks the list by exactly one. -/
theorem close_tab_by_id_length {l : List LinkyBuffer} {k : Int}
    (h : ∃ e ∈ l, e.page_id = k) :
    (close_tab_by_id l k).length + 1 = l.length := by
  induction l with
  | nil => simp at h
  | cons x xs ih =>
      by_cases hk : x.page_id = k
      · simp [close_tab_by_id, hk]
      · obtain ⟨e, he, hek⟩ := h
        rcases List.mem_cons.mp he with rfl | he2
        · exact absurd hek hk
        · simp only [close_tab_by_id, if_neg hk, List.length_cons]
          rw [ih ⟨e, he2, hek⟩]

/-- Searching a one-longer list after an unsuccessful search. -/
theorem find?_append_singleton {p : LinkyBuffer → Bool} {l : List LinkyBuffer}
    (h : l.find? p = none) (e : LinkyBuffer) :
    (l ++ [e]).find? p = if p e then some e else none := by
  induction l with
  | nil =>
      simp only [List.nil_append, List.find?]
      cases hx : p e <;> simp [hx]
  | cons x xs ih =>
      simp only [List.find?] at h ⊢
      cases hx : p x with
      | true => simp [hx] at h
      | false =>
          simp only [hx] at h ⊢
          exact ih h

/-- The state reached by `add_new_page_to_notebook` when every existing id is
below the new one: the new tab is appended at the end. -/
theorem add_new_page_list (db : Clickable → List SearchResult)
    (jrc jrv jcv : Int) (nb : Notebook) (d : Clickable)
    (h : ∀ x ∈ nb.open_tabs_list,
      x.page_id < (nb.open_tabs_list.length : Int)) :
    (add_new_page_to_notebook db jrc jrv jcv nb d).1.open_tabs_list
      = nb.open_tabs_list ++
        [⟨d, (nb.open_tabs_list.length : Int), tab_title d,
          resynthesize db jrc jrv jcv d⟩] := by
  unfold add_new_page_to_notebook
  exact insert_sorted_eq_append _ _ h

/-- `edsac_error_notebook_show_page` preserves the contiguity invariant. -/
theorem show_page_preserves_inv (db : Clickable → List SearchResult)
    (jrc jrv jcv : Int) (nb : Notebook) (d : Clickable)
    (hInv : Inv nb.open_tabs_list) :
    Inv (edsac_error_notebook_show_page db jrc jrv jcv nb d).1.open_tabs_list := by
  unfold edsac_error_notebook_show_page
  cases hf : nb.open_tabs_list.find?
      (fun lb => clickable_compare lb.description d) with
  | some tab => exact hInv
  | none =>
      have hb : ∀ x ∈ nb.open_tabs_list,
          x.page_id < (nb.open_tabs_list.length : Int) :=
        fun x hx => (mem_id_bounds hInv hx).2
      simp only [add_new_page_list db jrc jrv jcv nb d hb, Inv, ids,
        List.map_append, List.length_append, List.map_cons, List.map_nil,
        List.length_cons, List.length_nil]
      rw [show nb.open_tabs_list.length + (0 + 1)
            = nb.open_tabs_list.length + 1 by omega]
      rw [intRange_append 0 nb.open_tabs_list.length]
      unfold Inv ids at hInv
      rw [hInv]
      simp

/-- `close_button_handler` preserves the contiguity invariant. -/
theorem close_preserves_inv (nb : Notebook) (k : Int)
    (hInv : Inv nb.open_tabs_list) :
    Inv (close_button_handler nb k).1.open_tabs_list := by
  unfold close_button_handler
  by_cases hany : nb.open_tabs_list.any (fun lb => lb.page_id = k)
  · simp only [if_pos hany]
    obtain ⟨e, he, hek⟩ := by
      simpa using List.any_eq_true.mp hany
    have hb := mem_id_bounds hInv he
    have hlen := close_tab_by_id_length ⟨e, he, hek⟩
    have hids := close_tab_by_id_ids k nb.open_tabs_list 0 hInv
      (by omega) (by omega)
    unfold Inv
    rw [show (close_tab_by_id nb.open_tabs_list k).length
          = nb.open_tabs_list.length - 1 by omega]
    exact hids
  · simp only [if_neg hany]
    exact hInv

end EdsacNotebook

namespace EdsacNotebook

/-- C1: `clickable_compare` follows the stated equality policy: different tags
are unequal; ALL equals any ALL; RACK descriptors are equal iff their rack
numbers match; CHASSIS iff rack and chassis match; VALVE iff rack and chassis
match, the valve field not being compared — in particular two VALVE
descriptors with equal rack and chassis but different valve numbers compare
equal. -/
theorem clickable_compare_policy (a b : Clickable) :
    (a.type ≠ b.type → clickable_compare a b = false)
    ∧ (a.type = CType.all → b.type = CType.all → clickable_compare a b = true)
    ∧ (a.type = CType.rack → b.type = CType.rack →
        (clickable_compare a b = true ↔ a.rack_num = b.rack_num))
    ∧ (a.type = CType.chassis → b.type = CType.chassis →
        (clickable_compare a b = true ↔
          a.rack_num = b.rack_num ∧ a.chassis_num = b.chassis_num))
    ∧ (a.type = CType.valve → b.type = CType.valve →
        (clickable_compare a b = true ↔
          a.rack_num = b.rack_num ∧ a.chassis_num = b.chassis_num))
    ∧ (a.type = CType.valve → b.type = CType.valve →
        a.rack_num = b.rack_num → a.chassis_num = b.chassis_num →
        a.valve_num ≠ b.valve_num → clickable_compare a b = true) := by
  obtain ⟨ta, ar, ac, av⟩ := a
  obtain ⟨tb, br, bc, bv⟩ := b
  refine ⟨?_, ?_, ?_, ?_, ?_, ?_⟩ <;> intro h1 <;> simp_all [clickable_compare]

/-- Witness for `clickable_compare_policy`: evaluated at two concrete VALVE
descriptors agreeing on rack and chassis but not on valve, the comparison
returns true. -/
theorem clickable_compare_policy_witness :
    clickable_compare ⟨CType.valve, 1, 2, 3⟩ ⟨CType.valve, 1, 2, 4⟩ = true := by
  have h := clickable_compare_policy ⟨CType.valve, 1, 2, 3⟩ ⟨CType.valve, 1, 2, 4⟩
  exact h.2.2.2.2.2 rfl rfl rfl rfl (by decide)

/-- Operation sequences preserve the contiguity invariant. -/
theorem run_ops_preserves_inv (db : Clickable → List SearchResult)
    (jrc jrv jcv : Int) :
    ∀ (ops : List Op) (nb : Notebook), Inv nb.open_tabs_list →
      Inv (run_ops db jrc jrv jcv nb ops).open_tabs_list := by
  intro ops
  induction ops with
  | nil => intro nb h; exact h
  | cons op rest ih =>
      intro nb h
      show Inv (run_ops db jrc jrv jcv (apply_op db jrc jrv jcv nb op) rest).open_tabs_list
      apply ih
      cases op with
      | showOp d => exact show_page_preserves_inv db jrc jrv jcv nb d h
      | closeOp k => exact close_preserves_inv nb k h

/-- The initial registry created by `edsac_error_notebook_instance_init`
satisfies the contiguity invariant. -/
theorem init_notebook_inv (db : Clickable → List SearchResult)
    (jrc jrv jcv jr jc jv : Int) :
    Inv (init_notebook db jrc jrv jcv jr jc jv).open_tabs_list := by
  simp [init_notebook, add_new_page_to_notebook, g_slist_insert_sorted, Inv,
    ids, intRange]

/-- C3: after any sequence of open-or-focus and close operations starting from
the initial one-entry registry, the page ids of the open-tabs list read
exactly `0, 1, …, n − 1` in ascending order (`n` the number of entries):
no gaps, no duplicates, sorted. -/
theorem open_tabs_contiguous (db : Clickable → List SearchResult)
    (jrc jrv jcv jr jc jv : Int) (ops : List Op) :
    ids (run_ops db jrc jrv jcv (init_notebook db jrc jrv jcv jr jc jv)
        ops).open_tabs_list
      = intRange 0 (run_ops db jrc jrv jcv
          (init_notebook db jrc jrv jcv jr jc jv) ops).open_tabs_list.length :=
  run_ops_preserves_inv db jrc jrv jcv ops _
    (init_notebook_inv db jrc jrv jcv jr jc jv)

/-- A `filterMap` whose function is total on the list is a `map`. -/
theorem filterMap_eq_map_of_forall {α β : Type} {f : α → Option β} {g : α → β}
    (l : List α) (h : ∀ e ∈ l, f e = some (g e)) :
    l.filterMap f = l.map g := by
  induction l with
  | nil => rfl
  | cons x xs ih =>
      rw [List.filterMap_cons, h x (List.mem_cons_self _ _), List.map_cons,
        ih (fun e he => h e (List.mem_cons_of_mem _ he))]

/-- Closing page id `k` in a registry whose ids read `[s, s + n)` removes the
`k` entry, decrements ids above `k` and keeps entries below `k` whole. -/
theorem close_tab_by_id_filterMap (k : Int) :
    ∀ (l : List LinkyBuffer) (s : Int), ids l = intRange s l.length →
      s ≤ k → k < s + l.length →
      close_tab_by_id l k = l.filterMap (fun e =>
        if e.page_id = k then none
        else if k < e.page_id then some (open_tabs_list_dec_id e)
        else some e) := by
  intro l
  induction l with
  | nil => intro s _ h1 h2; simp at h2; omega
  | cons x xs ih =>
      intro s hids h1 h2
      have hx : x.page_id = s ∧ ids xs = intRange (s + 1) xs.length := by
        simpa [ids, intRange] using hids
      by_cases hk : x.page_id = k
      · simp only [close_tab_by_id, if_pos hk, List.filterMap_cons, hk,
          if_pos rfl]
        refine (filterMap_eq_map_of_forall xs (fun e he => ?_)).symm
        have : e.page_id ∈ ids xs := List.mem_map_of_mem _ he
        rw [hx.2] at this
        have hb := mem_intRange this
        rw [if_neg (by omega), if_pos (by omega)]
      · have hsk : s < k := by omega
        rcases xs with _ | ⟨y, ys⟩
        · simp at h2; omega
        · have hrec := ih (s + 1) hx.2 (by omega) (by simp at h2 ⊢; omega)
          have step : close_tab_by_id (x :: y :: ys) k
              = x :: close_tab_by_id (y :: ys) k := by
            simp [close_tab_by_id, hk]
          have hfx : (if x.page_id = k then none
              else if k < x.page_id then some (open_tabs_list_dec_id x)
              else some x) = some x := by
            rw [if_neg hk, if_neg (by omega : ¬ k < x.page_id)]
          rw [step, hrec]
          conv_rhs => rw [List.filterMap_cons, hfx]

/-- C4: for a registry satisfying the contiguity invariant and an open slot
`k`, closing `k` removes exactly the entry whose page id is `k`, decrements by
one the page id of every entry whose page id exceeded `k`, and leaves the
page id, descriptor, title and rendered buffer of every other entry unchanged
(`open_tabs_list_dec_id` itself touches only the page id). -/
theorem close_reindex_frame (nb : Notebook) (k : Int)
    (hInv : Inv nb.open_tabs_list)
    (hopen : ∃ e ∈ nb.open_tabs_list, e.page_id = k) :
    (close_button_handler nb k).1.open_tabs_list
      = nb.open_tabs_list.filterMap (fun e =>
          if e.page_id = k then none
          else if k < e.page_id then some (open_tabs_list_dec_id e)
          else some e)
    ∧ ∀ e : LinkyBuffer,
        (open_tabs_list_dec_id e).page_id = e.page_id - 1
        ∧ (open_tabs_list_dec_id e).description = e.description
        ∧ (open_tabs_list_dec_id e).title = e.title
        ∧ (open_tabs_list_dec_id e).buffer = e.buffer := by
  constructor
  · obtain ⟨e, he, hek⟩ := hopen
    have hany : nb.open_tabs_list.any (fun lb => lb.page_id = k) = true := by
      simp only [List.any_eq_true]
      exact ⟨e, he, by simp [hek]⟩
    have hb := mem_id_bounds hInv he
    simp only [close_button_handler, if_pos hany]
    exact close_tab_by_id_filterMap k nb.open_tabs_list 0 hInv
      (by omega) (by omega)
  · exact fun e => ⟨rfl, rfl, rfl, rfl⟩

/-- Witness for `close_reindex_frame`: in the concrete three-tab registry,
closing the middle page removes it, keeps the first tab whole and shifts the
last tab's id from 2 to 1. -/
theorem close_reindex_frame_witness :
    (close_button_handler wnb3 1).1.open_tabs_list
      = [wtab 10 0, wtab 12 1] := by
  have h := close_reindex_frame wnb3 1 (by decide)
    ⟨wtab 11 1, by decide, by decide⟩
  rw [h.1]
  decide

/-- C5: open-or-focus deduplicates: when a tab whose descriptor compares equal
to `d` is open, `edsac_error_notebook_show_page` mutates nothing and focuses
that tab's page; otherwise it appends exactly one tab at page index equal to
the prior registry size. Repeating the call with the same `d` is then a
fixpoint: any further sequence of `show d` operations leaves the state
untouched, so the size grows by at most one and every later call resolves to
the same slot. -/
theorem show_page_dedup (db : Clickable → List SearchResult)
    (jrc jrv jcv : Int) (nb : Notebook) (d : Clickable)
    (hInv : Inv nb.open_tabs_list) (hv : valid_type d.type) :
    (∀ t, nb.open_tabs_list.find?
        (fun lb => clickable_compare lb.description d) = some t →
      edsac_error_notebook_show_page db jrc jrv jcv nb d = (nb, t.page_id))
    ∧ (nb.open_tabs_list.find?
        (fun lb => clickable_compare lb.description d) = none →
      (edsac_error_notebook_show_page db jrc jrv jcv nb d).1.open_tabs_list
        = nb.open_tabs_list ++
          [⟨d, (nb.open_tabs_list.length : Int), tab_title d,
            resynthesize db jrc jrv jcv d⟩]
      ∧ (edsac_error_notebook_show_page db jrc jrv jcv nb d).2
          = (nb.open_tabs_list.length : Int))
    ∧ edsac_error_notebook_show_page db jrc jrv jcv
        (edsac_error_notebook_show_page db jrc jrv jcv nb d).1 d
        = edsac_error_notebook_show_page db jrc jrv jcv nb d
    ∧ (∀ m : Nat,
        run_ops db jrc jrv jcv
          (edsac_error_notebook_show_page db jrc jrv jcv nb d).1
          (List.replicate m (Op.showOp d))
        = (edsac_error_notebook_show_page db jrc jrv jcv nb d).1)
    ∧ (edsac_error_notebook_show_page db jrc jrv jcv nb d).1.open_tabs_list.length
        ≤ nb.open_tabs_list.length + 1 := by
  have hb : ∀ x ∈ nb.open_tabs_list,
      x.page_id < (nb.open_tabs_list.length : Int) :=
    fun x hx => (mem_id_bounds hInv hx).2
  have hfound : ∀ (nb2 : Notebook) (t : LinkyBuffer),
      nb2.open_tabs_list.find?
        (fun lb => clickable_compare lb.description d) = some t →
      edsac_error_notebook_show_page db jrc jrv jcv nb2 d = (nb2, t.page_id) := by
    intro nb2 t ht
    unfold edsac_error_notebook_show_page
    rw [ht]
  have h1 : ∀ t, nb.open_tabs_list.find?
      (fun lb => clickable_compare lb.description d) = some t →
      edsac_error_notebook_show_page db jrc jrv jcv nb d = (nb, t.page_id) :=
    fun t ht => hfound nb t ht
  have h2 : nb.open_tabs_list.find?
      (fun lb => clickable_compare lb.description d) = none →
      (edsac_error_notebook_show_page db jrc jrv jcv nb d).1.open_tabs_list
        = nb.open_tabs_list ++
          [⟨d, (nb.open_tabs_list.length : Int), tab_title d,
            resynthesize db jrc jrv jcv d⟩]
      ∧ (edsac_error_notebook_show_page db jrc jrv jcv nb d).2
          = (nb.open_tabs_list.length : Int) := by
    intro hn
    unfold edsac_error_notebook_show_page
    rw [hn]
    exact ⟨add_new_page_list db jrc jrv jcv nb d hb, rfl⟩
  have h3 : edsac_error_notebook_show_page db jrc jrv jcv
      (edsac_error_notebook_show_page db jrc jrv jcv nb d).1 d
      = edsac_error_notebook_show_page db jrc jrv jcv nb d := by
    cases hf : nb.open_tabs_list.find?
        (fun lb => clickable_compare lb.description d) with
    | some t =>
        rw [h1 t hf]
        exact h1 t hf
    | none =>
        obtain ⟨hlist, hslot⟩ := h2 hf
        have hfind2 : (edsac_error_notebook_show_page db jrc jrv jcv
            nb d).1.open_tabs_list.find?
            (fun lb => clickable_compare lb.description d)
            = some ⟨d, (nb.open_tabs_list.length : Int), tab_title d,
                resynthesize db jrc jrv jcv d⟩ := by
          rw [hlist, find?_append_singleton hf]
          simp [clickable_compare_refl d hv]
        rw [hfound _ _ hfind2]
        exact Prod.ext rfl hslot.symm
  have h4 : ∀ m : Nat,
      run_ops db jrc jrv jcv
        (edsac_error_notebook_show_page db jrc jrv jcv nb d).1
        (List.replicate m (Op.showOp d))
      = (edsac_error_notebook_show_page db jrc jrv jcv nb d).1 := by
    intro m
    induction m with
    | zero => rfl
    | succ p ih =>
        show run_ops db jrc jrv jcv _ (Op.showOp d :: List.replicate p (Op.showOp d)) = _
        unfold run_ops
        simp only [List.foldl_cons]
        have happ : apply_op db jrc jrv jcv
            (edsac_error_notebook_show_page db jrc jrv jcv nb d).1 (Op.showOp d)
            = (edsac_error_notebook_show_page db jrc jrv jcv nb d).1 := by
          show (edsac_error_notebook_show_page db jrc jrv jcv
              (edsac_error_notebook_show_page db jrc jrv jcv nb d).1 d).1 = _
          rw [h3]
        rw [happ]
        exact ih
  refine ⟨h1, h2, h3, h4, ?_⟩
  cases hf : nb.open_tabs_list.find?
      (fun lb => clickable_compare lb.description d) with
  | some t =>
      rw [h1 t hf]
      exact Nat.le_succ _
  | none =>
      rw [(h2 hf).1]
      simp

/-- Witness for `show_page_dedup`: on the concrete three-tab registry, showing
the already-open RACK(10) scope focuses page 0 and mutates nothing. -/
theorem show_page_dedup_witness :
    edsac_error_notebook_show_page dbW 0 0 0 wnb3 (wdesc 10) = (wnb3, 0) := by
  have h := show_page_dedup dbW 0 0 0 wnb3 (wdesc 10) (by decide)
    (Or.inr (Or.inl rfl))
  exact h.1 (wtab 10 0) (by decide)

/-- C6: closing an open page tears the whole surface down (the top-level
window is closed) exactly when it was the only remaining open view. -/
theorem close_last_tears_down (nb : Notebook) (k : Int)
    (hopen : ∃ e ∈ nb.open_tabs_list, e.page_id = k) :
    ((close_button_handler nb k).2 = true ↔ nb.open_tabs_list.length = 1) := by
  obtain ⟨e, he, hek⟩ := hopen
  have hany : nb.open_tabs_list.any (fun lb => lb.page_id = k) = true := by
    simp only [List.any_eq_true]
    exact ⟨e, he, by simp [hek]⟩
  have hlen := close_tab_by_id_length ⟨e, he, hek⟩
  simp only [close_button_handler, if_pos hany, beq_iff_eq]
  omega

/-- Witness for `close_last_tears_down`: closing page 0 of the one-tab
registry reports a surface teardown; closing page 1 of the three-tab registry
does not. -/
theorem close_last_tears_down_witness :
    (close_button_handler wnb1 0).2 = true
    ∧ (close_button_handler wnb3 1).2 = false := by
  constructor
  · exact (close_last_tears_down wnb1 0 ⟨wtab 10 0, by decide, rfl⟩).mpr
      (by decide)
  · have h := close_last_tears_down wnb3 1 ⟨wtab 11 1, by decide, rfl⟩
    cases hb : (close_button_handler wnb3 1).2 with
    | false => rfl
    | true => exact absurd (h.mp hb) (by decide)

/-- C9: the error count for the current page is the −1 sentinel exactly when
the current slot does not resolve (no current page, or the current page id is
absent from the open-tabs list); otherwise it is what the counting query
`count_clickable` reports for the focused tab's descriptor. -/
theorem get_error_count_spec (cc : Clickable → Int) (cp : Int) (nb : Notebook) :
    (cp = -1 → edsac_error_notebook_get_error_count cc cp nb = -1)
    ∧ (nb.open_tabs_list.find? (fun lb => lb.page_id = cp) = none →
        edsac_error_notebook_get_error_count cc cp nb = -1)
    ∧ (∀ lb, cp ≠ -1 →
        nb.open_tabs_list.find? (fun lb2 => lb2.page_id = cp) = some lb →
        edsac_error_notebook_get_error_count cc cp nb = cc lb.description)
    ∧ ((∀ d2, 0 ≤ cc d2) →
        (edsac_error_notebook_get_error_count cc cp nb = -1 ↔
          (cp = -1 ∨ nb.open_tabs_list.find?
            (fun lb => lb.page_id = cp) = none))) := by
  refine ⟨?_, ?_, ?_, ?_⟩
  · intro h
    simp [edsac_error_notebook_get_error_count, h]
  · intro h
    unfold edsac_error_notebook_get_error_count
    by_cases hcp : cp = -1
    · simp [hcp]
    · rw [if_neg hcp, h]
  · intro lb hcp hf
    unfold edsac_error_notebook_get_error_count
    rw [if_neg hcp, hf]
  · intro hpos
    by_cases hcp : cp = -1
    · simp [edsac_error_notebook_get_error_count, hcp]
    · cases hf : nb.open_tabs_list.find? (fun lb => lb.page_id = cp) with
      | none => simp [edsac_error_notebook_get_error_count, hcp, hf]
      | some lb =>
          have hv2 := hpos lb.description
          simp only [edsac_error_notebook_get_error_count, if_neg hcp, hf]
          constructor
          · intro heq
            exact absurd heq (by omega)
          · rintro (h | h)
            · exact absurd h hcp
            · simp at h

/-- Witness for `get_error_count_spec`: with the constant-five counting
service and current page 0 on the concrete one-tab registry, the count is 5;
with no current page it is −1. -/
theorem get_error_count_spec_witness :
    edsac_error_notebook_get_error_count ccW 0 wnb1 = 5
    ∧ edsac_error_notebook_get_error_count ccW (-1) wnb1 = -1 := by
  constructor
  · exact (get_error_count_spec ccW 0 wnb1).2.2.1 (wtab 10 0) (by decide)
      (by decide)
  · exact (get_error_count_spec ccW (-1) wnb1).1 rfl

/-- An unsuccessful scan pass means no entry matches the rack/chassis
fields. -/
theorem remove_first_match_none {r c : Int} :
    ∀ {l : List LinkyBuffer}, remove_first_match r c l = none →
      ∀ e ∈ l, node_match r c e = false := by
  intro l
  induction l with
  | nil => intro _ e he; simp at he
  | cons x xs ih =>
      intro h e he
      by_cases hm : node_match r c x
      · simp [remove_first_match, hm] at h
      · rcases List.mem_cons.mp he with rfl | he2
        · simpa using hm
        · cases hrec : remove_first_match r c xs with
          | none => exact ih hrec e he2
          | some ys => simp [remove_first_match, hm, hrec] at h

/-- A successful scan pass shortens the list by exactly one. -/
theorem remove_first_match_length {r c : Int} :
    ∀ {l l2 : List LinkyBuffer}, remove_first_match r c l = some l2 →
      l2.length + 1 = l.length := by
  intro l
  induction l with
  | nil => intro l2 h; simp [remove_first_match] at h
  | cons x xs ih =>
      intro l2 h
      by_cases hm : node_match r c x
      · simp only [remove_first_match, if_pos hm, Option.some.injEq] at h
        subst h
        simp
      · cases hrec : remove_first_match r c xs with
        | none => simp [remove_first_match, hm, hrec] at h
        | some ys =>
            simp only [remove_first_match, if_neg hm, hrec,
              Option.some.injEq] at h
            subst h
            simp only [List.length_cons]
            rw [ih hrec]

/-- Filtering the non-matching tabs commutes with the id decrement, up to the
tab identities. -/
theorem filter_map_dec_view_key (r c : Int) (xs : List LinkyBuffer) :
    (((xs.map open_tabs_list_dec_id).filter
        (fun e => !node_match r c e)).map view_key)
      = ((xs.filter (fun e => !node_match r c e)).map view_key) := by
  induction xs with
  | nil => rfl
  | cons x t ih =>
      have hm : node_match r c (open_tabs_list_dec_id x) = node_match r c x := rfl
      cases hx : node_match r c x with
      | true => simp [List.filter_cons, hm, hx, ih]
      | false =>
          simp only [List.map_cons, List.filter_cons, hm, hx, Bool.not_false,
            if_true]
          rw [ih]
          rfl

/-- One close pass does not change which non-matching tabs remain. -/
theorem remove_first_match_filter {r c : Int} :
    ∀ {l l2 : List LinkyBuffer}, remove_first_match r c l = some l2 →
      ((l2.filter (fun e => !node_match r c e)).map view_key)
        = ((l.filter (fun e => !node_match r c e)).map view_key) := by
  intro l
  induction l with
  | nil => intro l2 h; simp [remove_first_match] at h
  | cons x xs ih =>
      intro l2 h
      by_cases hm : node_match r c x
      · simp only [remove_first_match, if_pos hm, Option.some.injEq] at h
        subst h
        rw [filter_map_dec_view_key]
        simp [List.filter_cons, hm]
      · cases hrec : remove_first_match r c xs with
        | none => simp [remove_first_match, hm, hrec] at h
        | some ys =>
            simp only [remove_first_match, if_neg hm, hrec,
              Option.some.injEq] at h
            subst h
            simp [List.filter_cons, hm, ih hrec]

/-- A list with no matching tab is untouched by the non-matching filter. -/
theorem filter_eq_self_of_no_match {r c : Int} :
    ∀ {l : List LinkyBuffer}, (∀ e ∈ l, node_match r c e = false) →
      l.filter (fun e => !node_match r c e) = l := by
  intro l
  induction l with
  | nil => intro _; rfl
  | cons x xs ih =>
      intro h
      simp [List.filter_cons, h x (List.mem_cons_self _ _),
        ih (fun e he => h e (List.mem_cons_of_mem _ he))]

/-- With enough fuel the close-node loop keeps exactly the tabs whose
rack/chassis fields do not both match. -/
theorem close_node_go_filter (r c : Int) :
    ∀ (fuel : Nat) (l : List LinkyBuffer), l.length ≤ fuel →
      ((close_node_go r c fuel l).map view_key)
        = ((l.filter (fun e => !node_match r c e)).map view_key) := by
  intro fuel
  induction fuel with
  | zero =>
      intro l hl
      have : l = [] := List.eq_nil_of_length_eq_zero (by omega)
      subst this
      rfl
  | succ f ih =>
      intro l hl
      show (match remove_first_match r c l with
        | none => l
        | some l2 => close_node_go r c f l2).map view_key = _
      cases hr : remove_first_match r c l with
      | none =>
          rw [filter_eq_self_of_no_match (remove_first_match_none hr)]
      | some l2 =>
          have hlen := remove_first_match_length hr
          rw [ih l2 (by omega), remove_first_match_filter hr]

/-- C2 fails on the code: `edsac_error_notebook_close_node(3, 5)` closes an
open view whose descriptor is VALVE(3,5,7) — a tag other than CHASSIS — so
the claim that tag-different views always remain open is false. -/
theorem close_node_counterexample :
    (edsac_error_notebook_close_node
        ⟨[⟨⟨CType.valve, 3, 5, 7⟩, 0, "t", emptyTextBuf⟩]⟩ 3 5).open_tabs_list
      = []
    ∧ (⟨CType.valve, 3, 5, 7⟩ : Clickable).type ≠ CType.chassis := by
  decide

/-- C2 amended: `edsac_error_notebook_close_node(rack, chassis)` closes
exactly those open views whose descriptor's `rack_num` and `chassis_num`
fields equal the arguments — the type tag is never consulted — and every
other view remains open, in order, with its descriptor, title and rendered
buffer unchanged. -/
theorem close_node_closes_matching_fields (r c : Int) (nb : Notebook) :
    (edsac_error_notebook_close_node nb r c).open_tabs_list.map view_key
      = (nb.open_tabs_list.filter (fun e => !node_match r c e)).map view_key :=
  close_node_go_filter r c nb.open_tabs_list.length nb.open_tabs_list
    (Nat.le_refl _)

/-- C7: resynthesizing the single record
`{rack = 3, chassis = 5, valve = −1, message = "Overheat", enabled = false}`
into an empty buffer yields exactly the text `"Rack: 3, Chassis: 5,
Overheat\n"`, exactly two filter-bound ranges — RACK(3) over offsets 0–7 and
CHASSIS(3,5) over offsets 9–19, no valve range — and exactly one description
range from offset 19 to the end of the line (offset 30), bound to the
record's id and styled as disabled. -/
theorem append_linky_render (eid jrc jrv jcv : Int) :
    (append_linky_text_buffer jrc jrv jcv emptyTextBuf
        ⟨3, 5, -1, "Overheat", false, eid⟩).text
      = "Rack: 3, Chassis: 5, Overheat\n"
    ∧ (append_linky_text_buffer jrc jrv jcv emptyTextBuf
        ⟨3, 5, -1, "Overheat", false, eid⟩).links
      = [⟨0, 7, ⟨CType.rack, 3, jrc, jrv⟩⟩,
         ⟨9, 19, ⟨CType.chassis, 3, 5, jcv⟩⟩]
    ∧ (append_linky_text_buffer jrc jrv jcv emptyTextBuf
        ⟨3, 5, -1, "Overheat", false, eid⟩).descs
      = [⟨19, 30, eid, true⟩] :=
  ⟨rfl, rfl, rfl⟩

/-- C8 fails on the code: the CHASSIS title carries a colon after "Chassis"
(`"Rack %i, Chassis: %i"`) and the VALVE title a colon after "Valve", so the
claimed exact strings "Rack R, Chassis C" and "Rack R, Chassis C, Valve V"
are not produced. -/
theorem tab_title_counterexample :
    tab_title ⟨CType.chassis, 1, 2, 0⟩ ≠ "Rack 1, Chassis 2"
    ∧ tab_title ⟨CType.chassis, 1, 2, 0⟩ = "Rack 1, Chassis: 2"
    ∧ tab_title ⟨CType.valve, 1, 2, 3⟩ ≠ "Rack 1, Chassis 2, Valve 3"
    ∧ tab_title ⟨CType.valve, 1, 2, 3⟩ = "Rack 1, Chassis 2, Valve: 3" := by
  refine ⟨?_, rfl, ?_, rfl⟩ <;> decide

/-- C8 amended: the derived tab title is exactly "All" for ALL, "Rack R" for
RACK(R), "Rack R, Chassis: C" for CHASSIS(R,C), "Rack R, Chassis C, Valve: V"
for VALVE(R,C,V), and "(Unknown)" for any other tag, with R, C, V the decimal
renderings of the fields. -/
theorem tab_title_spec (r c v : Int) (n : Nat) :
    tab_title ⟨CType.all, r, c, v⟩ = "All"
    ∧ tab_title ⟨CType.rack, r, c, v⟩ = "Rack " ++ toString r
    ∧ tab_title ⟨CType.chassis, r, c, v⟩
        = "Rack " ++ toString r ++ ", Chassis: " ++ toString c
    ∧ tab_title ⟨CType.valve, r, c, v⟩
        = "Rack " ++ toString r ++ ", Chassis " ++ toString c
          ++ ", Valve: " ++ toString v
    ∧ tab_title ⟨CType.other n, r, c, v⟩ = "(Unknown)" :=
  ⟨rfl, rfl, rfl, rfl, rfl⟩

/-- A scan over non-matching non-NULL entries that reaches a NULL entry
finishes the function, whatever was accumulated. -/
theorem close_node_scan_stops {r c : Int} :
    ∀ (pre : List (Option LinkyBuffer)),
      (∀ e ∈ pre, ∃ lb, e = some lb ∧ node_match r c lb = false) →
      ∀ (acc rest : List (Option LinkyBuffer)),
        close_node_scan r c acc (pre ++ none :: rest)
          = Except.ok ScanResult.finished := by
  intro pre
  induction pre with
  | nil => intro _ acc rest; rfl
  | cons e pre2 ih =>
      intro h acc rest
      obtain ⟨lb, rfl, hm⟩ := h e (List.mem_cons_self _ _)
      show close_node_scan r c acc (some lb :: (pre2 ++ none :: rest)) = _
      simp only [close_node_scan, hm, Bool.false_eq_true, if_false]
      exact ih (fun e2 he2 => h e2 (List.mem_cons_of_mem _ he2)) _ rest

/-- C10: `edsac_error_notebook_close_node` on a NULL notebook is a silent
no-op, and when the scan encounters a NULL entry in the open-tabs list (every
earlier entry being non-NULL and non-matching) the function returns with the
list untouched — no NULL dereference, assertion or process termination
occurs. -/
theorem close_node_null_safe (r c : Int) :
    (∀ r2 c2 : Int,
      edsac_error_notebook_close_node_checked none r2 c2 = Except.ok none)
    ∧ ∀ (pre rest : List (Option LinkyBuffer)),
        (∀ e ∈ pre, ∃ lb, e = some lb ∧ node_match r c lb = false) →
        edsac_error_notebook_close_node_checked (some (pre ++ none :: rest)) r c
          = Except.ok (some (pre ++ none :: rest)) := by
  constructor
  · intro r2 c2; rfl
  · intro pre rest h
    obtain ⟨m, hm⟩ : ∃ m, (pre ++ none :: rest).length = m + 1 :=
      ⟨pre.length + rest.length, by simp; omega⟩
    show (match close_node_go_checked r c (pre ++ none :: rest).length
        (pre ++ none :: rest) with
      | Except.error e => Except.error e
      | Except.ok l2 => Except.ok (some l2)) = _
    rw [hm]
    show (match (match close_node_scan r c [] (pre ++ none :: rest) with
      | Except.error e => Except.error e
      | Except.ok ScanResult.finished => Except.ok (pre ++ none :: rest)
      | Except.ok (ScanResult.closed l2) =>
          close_node_go_checked r c m l2) with
      | Except.error e => Except.error e
      | Except.ok l2 => Except.ok (some l2)) = _
    rw [close_node_scan_stops pre h [] rest]

/-- Witness for `close_node_null_safe`: on the concrete list holding one
non-matching tab followed by a NULL entry, `close_node(3, 5)` returns
normally with the list unchanged. -/
theorem close_node_null_safe_witness :
    edsac_error_notebook_close_node_checked
        (some [some (wtab 10 0), none]) 3 5
      = Except.ok (some [some (wtab 10 0), none]) := by
  have h := (close_node_null_safe 3 5).2 [some (wtab 10 0)] []
    (by
      intro e he
      simp only [List.mem_singleton] at he
      subst he
      exact ⟨wtab 10 0, rfl, by decide⟩)
  simpa using h

end EdsacNotebook
